import Mathlib

/-
Verification of the entity-extraction core of the two Python scripts
`src/extract_definitions.py` (namespace `ED` below) and
`src/extract_code_entities.py` (namespace `ECE` below).

The Python `ast` layer is shallowly embedded: the constructors below model
exactly the node classes that the two scripts dispatch on with `isinstance`
(`ast.Expr` statements, `ast.FunctionDef`, `ast.AsyncFunctionDef`,
`ast.ClassDef`, plus representatives of every other statement kind, which the
scripts treat uniformly).  `ast.parse` and `ast.get_source_segment` are the
host parser and span resolver; they are passed in as the parameters `parse`
and `seg`.  Python exceptions are modelled with `Except PyError`.
-/

/-- Constant payloads of `ast.Constant` nodes that matter to the scripts:
string literals, plus non-string representatives (an int literal and
`None`) used to exercise the non-docstring branches. -/
inductive Const where
  | str (s : String)
  | intLit (n : Int)
  | noneLit

/-- Expression nodes.  `constant` is `ast.Constant`, `name` is `ast.Name`
(the only node with an `id` attribute), `attr` is `ast.Attribute` (whose
`value` attribute is its base expression), `call` is `ast.Call` (which has
neither an `id` nor a `value` attribute; its argument list is never
inspected by either script, so it is not carried). -/
inductive Expr where
  | constant (value : Const)
  | name (id : String)
  | attr (value : Expr) (attrName : String)
  | call (func : Expr)

/-- Statement nodes.  `exprStmt` is `ast.Expr` (an expression statement);
`functionDef`, `asyncFunctionDef` and `classDef` carry exactly the fields
the scripts read (`name`, `bases`, `body`).  `passStmt`, `assignStmt` and
`importStmt` represent all remaining statement kinds, which both scripts
ignore uniformly (every `isinstance` test they run is false on them). -/
inductive Stmt where
  | exprStmt (value : Expr)
  | functionDef (name : String) (body : List Stmt)
  | asyncFunctionDef (name : String) (body : List Stmt)
  | classDef (name : String) (bases : List Expr) (body : List Stmt)
  | passStmt
  | assignStmt
  | importStmt

/-- Exceptions that can escape the two scripts' extraction code paths. -/
inductive PyError where
  | syntaxError
  | attributeError
  | indexError
deriving DecidableEq

/-- Runtime values that can end up in the `docs` field of
`extract_code_entities.py` (its `stmts[0].value.value` read is untyped:
it can produce a string, a non-string constant, or even an AST node when
the first expression statement is an `ast.Attribute`). -/
inductive PyVal where
  | noneVal
  | str (s : String)
  | intVal (n : Int)
  | nodeVal (e : Expr)

/-- The `.name` attribute of a definition node.  In Python, reading `.name`
on any other statement kind would raise `AttributeError`; both scripts only
ever read it on nodes that passed an `isinstance` filter for
`FunctionDef`/`ClassDef`, so the default arm is unreachable there. -/
def Stmt.defName : Stmt → String
  | .functionDef n _ => n
  | .asyncFunctionDef n _ => n
  | .classDef n _ _ => n
  | _ => ""

/-- The `.body` attribute of a definition node (unreachable default as for
`Stmt.defName`). -/
def Stmt.defBody : Stmt → List Stmt
  | .functionDef _ b => b
  | .asyncFunctionDef _ b => b
  | .classDef _ _ b => b
  | _ => []

/-- The `.bases` attribute of a class-definition node (unreachable default
as for `Stmt.defName`). -/
def Stmt.classBases : Stmt → List Expr
  | .classDef _ bs _ => bs
  | _ => []

/-- `isinstance(node, ast.FunctionDef)`.  In CPython, `ast.AsyncFunctionDef`
is not a subclass of `ast.FunctionDef`, so async definitions fail this
test. -/
def Stmt.isFunctionDef : Stmt → Bool
  | .functionDef _ _ => true
  | _ => false

/-- `isinstance(node, ast.ClassDef)`. -/
def Stmt.isClassDef : Stmt → Bool
  | .classDef _ _ _ => true
  | _ => false

/-- `isinstance(node, ast.Expr)`. -/
def Stmt.isExprStmt : Stmt → Bool
  | .exprStmt _ => true
  | _ => false

/-- Python `str.isspace`-style whitespace relevant to `str.lstrip()` on the
ASCII range (space, tab, newline, carriage return, vertical tab, form
feed). -/
def pyIsSpace (c : Char) : Bool :=
  c = ' ' || c = '\t' || c = '\n' || c = '\r' || c = '\x0b' || c = '\x0c'

/-- Python `str.expandtabs()` with the default tab size 8, over a character
list: a tab pads with spaces to the next multiple of 8; `\n` and `\r`
reset the column; every other character advances the column by one. -/
def expandTabsAux : List Char → Nat → List Char
  | [], _ => []
  | c :: cs, col =>
    if c = '\t' then
      let pad := 8 - col % 8
      List.replicate pad ' ' ++ expandTabsAux cs (col + pad)
    else if c = '\n' || c = '\r' then
      c :: expandTabsAux cs 0
    else
      c :: expandTabsAux cs (col + 1)

/-- Python `str.split('\n')` over a character list: returns the segments
between newline characters, keeping empty segments (one more segment than
there are newlines). -/
def splitOnNl (cs : List Char) : List (List Char) :=
  cs.foldr
    (fun c acc =>
      match acc with
      | [] => [[c]]
      | line :: rest => if c = '\n' then [] :: line :: rest else (c :: line) :: rest)
    [[]]

/-- One step of `inspect.cleandoc`'s margin computation: a non-blank line
(one with content left after `lstrip`) contributes its indentation to the
running minimum. -/
def marginStep (m : Option Nat) (line : List Char) : Option Nat :=
  let content := (line.dropWhile pyIsSpace).length
  if content = 0 then m
  else
    let indent := line.length - content
    match m with
    | none => some indent
    | some k => some (min k indent)

/-- `inspect.cleandoc`, as invoked by `ast.get_docstring` (which both
scripts call for function, method and class docstrings, and
`extract_definitions.py` also calls for the module docstring): expand tabs,
split into lines, strip the first line's leading whitespace, remove the
common indentation margin of the remaining non-blank lines, then drop
trailing and leading blank lines. -/
def cleandoc (doc : String) : String :=
  let lines := splitOnNl (expandTabsAux doc.data 0)
  let margin := lines.tail.foldl marginStep none
  let lines :=
    match lines with
    | [] => []
    | l0 :: rest => l0.dropWhile pyIsSpace :: rest
  let lines :=
    match margin with
    | none => lines
    | some m =>
      match lines with
      | [] => []
      | l0 :: rest => l0 :: rest.map (List.drop m)
  let lines := (lines.reverse.dropWhile List.isEmpty).reverse
  let lines := lines.dropWhile List.isEmpty
  String.mk (List.intercalate ['\n'] lines)

/-- `ast.get_docstring(node)` applied to a node with the given `body`:
returns the cleaned string value when the first body statement is an
expression statement whose value is a string constant, and `None` in every
other case (including an empty body). -/
def get_docstring : List Stmt → Option String
  | .exprStmt (.constant (.str s)) :: _ => some (cleandoc s)
  | _ => none

/-- Reading the `.id` attribute of an expression node, as in the scripts'
`[base.id for base in node.bases]`: only `ast.Name` has an `id` attribute;
every other node raises `AttributeError`. -/
def Expr.idAttr : Expr → Except PyError String
  | .name id => .ok id
  | _ => .error .attributeError

/-- Reading the `.value` attribute of an expression node, as in
`extract_code_entities.py`'s `stmts[0].value.value`: an `ast.Constant`
yields its payload, an `ast.Attribute` yields its base expression node, and
`ast.Name` / `ast.Call` have no `value` attribute and raise
`AttributeError`. -/
def Expr.valueAttr : Expr → Except PyError PyVal
  | .constant (.str s) => .ok (.str s)
  | .constant (.intLit n) => .ok (.intVal n)
  | .constant .noneLit => .ok .noneVal
  | .attr v _ => .ok (.nodeVal v)
  | .name _ => .error .attributeError
  | .call _ => .error .attributeError

/-- A Python list comprehension `[f(x) for x in xs]` whose element
expression may raise: elements are evaluated left to right and the first
exception aborts the whole comprehension. -/
def exceptMap {α β : Type} (f : α → Except PyError β) : List α → Except PyError (List β)
  | [] => .ok []
  | x :: xs =>
    match f x with
    | .error e => .error e
    | .ok y =>
      match exceptMap f xs with
      | .error e => .error e
      | .ok ys => .ok (y :: ys)

namespace ED

/-- `FunctionInfo` of `extract_definitions.py`: note `content` is always a
string there (the `or ""` fallback replaces a missing span by `""`). -/
structure FunctionInfo where
  name : String
  docstring : Option String
  content : String

/-- `ClassInfo` of `extract_definitions.py`. -/
structure ClassInfo where
  name : String
  docstring : Option String
  bases : List String
  methods : List FunctionInfo

/-- `ModuleInfo` of `extract_definitions.py`; its docstring key is named
`docstring`. -/
structure ModuleInfo where
  docstring : Option String
  classes : List ClassInfo
  functions : List FunctionInfo

/-- `extract_function_info(node, file_content)` from
`src/extract_definitions.py` lines 49-66.  `seg` stands for
`fun node => ast.get_source_segment(file_content, node)`; the Python
`... or ""` turns a `None` span into `""` (and leaves every string value,
empty or not, unchanged). -/
def extract_function_info (seg : Stmt → Option String) (node : Stmt) : FunctionInfo :=
  { name := node.defName
    docstring := get_docstring node.defBody
    content := (seg node).getD "" }

/-- `extract_class_info(node, file_content)` from
`src/extract_definitions.py` lines 69-87: methods are the direct
`FunctionDef` children of the class body, and `[base.id for base in
node.bases]` raises `AttributeError` on the first non-`Name` base. -/
def extract_class_info (seg : Stmt → Option String) (node : Stmt) :
    Except PyError ClassInfo :=
  let methods := (node.defBody.filter Stmt.isFunctionDef).map (extract_function_info seg)
  match exceptMap Expr.idAttr node.classBases with
  | .error e => .error e
  | .ok bs =>
    .ok { name := node.defName
          docstring := get_docstring node.defBody
          bases := bs
          methods := methods }

/-- `get_module_info(file_content)` from `src/extract_definitions.py`
lines 90-113.  `parse` stands for `ast.parse`; a parse failure
(`SyntaxError`) propagates uncaught, as does any `AttributeError` from
`extract_class_info`. -/
def get_module_info (parse : String → Except PyError (List Stmt))
    (seg : Stmt → Option String) (file_content : String) :
    Except PyError ModuleInfo :=
  match parse file_content with
  | .error e => .error e
  | .ok body =>
    let module_docstring := get_docstring body
    let functions := (body.filter Stmt.isFunctionDef).map (extract_function_info seg)
    match exceptMap (extract_class_info seg) (body.filter Stmt.isClassDef) with
    | .error e => .error e
    | .ok classes =>
      .ok { docstring := module_docstring
            classes := classes
            functions := functions }

end ED

namespace ECE

/-- `FunctionInfo` of `extract_code_entities.py`: `content` is the raw
result of `ast.get_source_segment` and can be `None`. -/
structure FunctionInfo where
  name : String
  docstring : Option String
  content : Option String

/-- `ClassInfo` of `extract_code_entities.py`. -/
structure ClassInfo where
  name : String
  docstring : Option String
  bases : List String
  methods : List FunctionInfo

/-- `ModuleInfo` of `extract_code_entities.py`; its docstring key is named
`docs` and its value is whatever `stmts[0].value.value` produced. -/
structure ModuleInfo where
  docs : PyVal
  classes : List ClassInfo
  functions : List FunctionInfo

/-- `get_function_info(node, file_content)` from
`src/extract_code_entities.py` lines 45-50. -/
def get_function_info (seg : Stmt → Option String) (node : Stmt) : FunctionInfo :=
  { name := node.defName
    docstring := get_docstring node.defBody
    content := seg node }

/-- The module-docstring detection of `src/extract_code_entities.py`
lines 59-62: `stmts[0]` raises `IndexError` on an empty module; a first
statement that is any expression statement has its `.value.value` read
(whatever it is); any other first statement gives `None`. -/
def module_docs : List Stmt → Except PyError PyVal
  | [] => .error .indexError
  | .exprStmt e :: _ => e.valueAttr
  | _ :: _ => .ok .noneVal

/-- The per-class body of the loop in `src/extract_code_entities.py`
lines 71-78: the `ClassInfo` appended for one class, with its bases read
via `base.id` (raising on a non-`Name` base) and its methods collected from
the direct `FunctionDef` children of the class body. -/
def class_info (seg : Stmt → Option String) (node : Stmt) :
    Except PyError ClassInfo :=
  match exceptMap Expr.idAttr node.classBases with
  | .error e => .error e
  | .ok bs =>
    .ok { name := node.defName
          docstring := get_docstring node.defBody
          bases := bs
          methods := (node.defBody.filter Stmt.isFunctionDef).map (get_function_info seg) }

/-- `get_module_info(file_content)` from `src/extract_code_entities.py`
lines 53-80: parse, read the module docstring from `stmts[0]`, then append
one record per top-level `FunctionDef` and per top-level `ClassDef`, in
source order. -/
def get_module_info (parse : String → Except PyError (List Stmt))
    (seg : Stmt → Option String) (file_content : String) :
    Except PyError ModuleInfo :=
  match parse file_content with
  | .error e => .error e
  | .ok stmts =>
    match module_docs stmts with
    | .error e => .error e
    | .ok docs =>
      let functions := (stmts.filter Stmt.isFunctionDef).map (get_function_info seg)
      match exceptMap (class_info seg) (stmts.filter Stmt.isClassDef) with
      | .error e => .error e
      | .ok classes =>
        .ok { docs := docs
              classes := classes
              functions := functions }

end ECE

/-- Dictionary values, for comparing the two scripts' records as the Python
dict structures they serialize: a tree of null / string / int / AST-node
values, lists, and key-ordered dictionaries. -/
inductive DVal where
  | null
  | str (s : String)
  | intVal (n : Int)
  | nodeVal (e : Expr)
  | list (xs : List DVal)
  | dict (fields : List (String × DVal))

/-- An optional string as a dict value (`None` becomes null). -/
def optStrD : Option String → DVal
  | none => .null
  | some s => .str s

/-- A `PyVal` as a dict value. -/
def pyValD : PyVal → DVal
  | .noneVal => .null
  | .str s => .str s
  | .intVal n => .intVal n
  | .nodeVal e => .nodeVal e

/-- The dict built by `FunctionInfo(name=..., docstring=..., content=...)`
in `extract_definitions.py` (keys in construction order). -/
def ED.FunctionInfo.toD (r : ED.FunctionInfo) : DVal :=
  .dict [("name", .str r.name), ("docstring", optStrD r.docstring),
         ("content", .str r.content)]

/-- The dict built by `ClassInfo(...)` in `extract_definitions.py`. -/
def ED.ClassInfo.toD (c : ED.ClassInfo) : DVal :=
  .dict [("name", .str c.name), ("docstring", optStrD c.docstring),
         ("bases", .list (c.bases.map DVal.str)),
         ("methods", .list (c.methods.map ED.FunctionInfo.toD))]

/-- The dict built by `ModuleInfo(docstring=..., classes=..., functions=...)`
in `extract_definitions.py`: its docstring key is `"docstring"`. -/
def ED.ModuleInfo.toD (m : ED.ModuleInfo) : DVal :=
  .dict [("docstring", optStrD m.docstring),
         ("classes", .list (m.classes.map ED.ClassInfo.toD)),
         ("functions", .list (m.functions.map ED.FunctionInfo.toD))]

/-- The dict built by `FunctionInfo(...)` in `extract_code_entities.py`
(`content` may be `None` there). -/
def ECE.FunctionInfo.toD (r : ECE.FunctionInfo) : DVal :=
  .dict [("name", .str r.name), ("docstring", optStrD r.docstring),
         ("content", optStrD r.content)]

/-- The dict built by `ClassInfo(...)` in `extract_code_entities.py`. -/
def ECE.ClassInfo.toD (c : ECE.ClassInfo) : DVal :=
  .dict [("name", .str c.name), ("docstring", optStrD c.docstring),
         ("bases", .list (c.bases.map DVal.str)),
         ("methods", .list (c.methods.map ECE.FunctionInfo.toD))]

/-- The dict built by `ModuleInfo(docs=..., classes=..., functions=...)`
in `extract_code_entities.py`: its docstring key is `"docs"`. -/
def ECE.ModuleInfo.toD (m : ECE.ModuleInfo) : DVal :=
  .dict [("docs", pyValD m.docs),
         ("classes", .list (m.classes.map ECE.ClassInfo.toD)),
         ("functions", .list (m.functions.map ECE.FunctionInfo.toD))]

/-- Modelled from the spec: the Parser Adapter of section 4.1 is the host
library pair `ast.parse` / `ast.get_source_segment`, which is not code
under `src/`.  Per the contract, the span resolver maps every
function-definition node back to the exact (hence non-empty) substring of
the source that produced it, and re-parsing that substring parses
successfully to exactly that one definition (the grammar fact behind the
section 8 round-trip property: a definition's own text is a valid
one-statement module). -/
structure ParserAdapterOK (parse : String → Except PyError (List Stmt))
    (seg : Stmt → Option String) : Prop where
  resolves : ∀ nm body, ∃ s, seg (Stmt.functionDef nm body) = some s ∧ s ≠ ""
  roundtrip : ∀ nm body s, seg (Stmt.functionDef nm body) = some s →
    ∃ body2, parse s = Except.ok [Stmt.functionDef nm body2]

/-- A span resolver with no location information: every span is `None`. -/
def segNone : Stmt → Option String := fun _ => none

/-- The AST `ast.parse` produces for the source `"42"`: a single expression
statement holding the constant `42`. -/
def parse42 : String → Except PyError (List Stmt) :=
  fun _ => .ok [Stmt.exprStmt (Expr.constant (Const.intLit 42))]

/-- The AST `ast.parse` produces for the empty source `""`: an empty
top-level statement list. -/
def parseEmptyMod : String → Except PyError (List Stmt) :=
  fun _ => .ok []

/-- The AST `ast.parse` produces for
`"class C(module.Base):\n    pass"`: one class whose single base is the
attribute access `module.Base` (an `ast.Attribute`, not an `ast.Name`). -/
def parseClassAttrBase : String → Except PyError (List Stmt) :=
  fun _ => .ok [Stmt.classDef "C" [Expr.attr (Expr.name "module") "Base"] [Stmt.passStmt]]

/-- The AST `ast.parse` produces for the source `"pass"`. -/
def parsePass : String → Except PyError (List Stmt) :=
  fun _ => .ok [Stmt.passStmt]

/-- A parser that always reports a syntax error, standing for `ast.parse`
on an unparseable text such as `"def f(:"`. -/
def parseBad : String → Except PyError (List Stmt) :=
  fun _ => .error .syntaxError

/-- Strip a leading `"def "` from a character list, returning the remainder
(used to build a concrete parser/resolver pair satisfying
`ParserAdapterOK`). -/
def defNameOf : List Char → Option (List Char)
  | 'd' :: 'e' :: 'f' :: ' ' :: rest => some rest
  | _ => none

/-- A concrete parser for a miniature grammar in which the text
`"def NAME"` denotes a module holding the single function `NAME` with empty
body; everything else is a syntax error. -/
def parseRT : String → Except PyError (List Stmt) :=
  fun s =>
    match defNameOf s.data with
    | some nm => .ok [Stmt.functionDef (String.mk nm) []]
    | none => .error .syntaxError

/-- The span resolver matching `parseRT`: the span of a function named
`NAME` is the text `"def NAME"`; other statements have no span. -/
def segRT : Stmt → Option String :=
  fun st =>
    match st with
    | .functionDef nm _ => some (String.mk ('d' :: 'e' :: 'f' :: ' ' :: nm.data))
    | _ => none

/-- The pair `parseRT` / `segRT` satisfies the Parser Adapter contract. -/
theorem parseRT_segRT_ok : ParserAdapterOK parseRT segRT := by
  constructor
  · intro nm body
    refine ⟨String.mk ('d' :: 'e' :: 'f' :: ' ' :: nm.data), rfl, ?_⟩
    intro h
    have h2 := congrArg String.data h
    simp [String.data] at h2
  · intro nm body s h
    have hs : String.mk ('d' :: 'e' :: 'f' :: ' ' :: nm.data) = s := Option.some.inj h
    subst hs
    refine ⟨[], ?_⟩
    show parseRT (String.mk ('d' :: 'e' :: 'f' :: ' ' :: nm.data)) = _
    unfold parseRT
    cases nm with
    | mk l => rfl

/-- A list maps equally under two functions that agree on its members. -/
theorem mapCongrMem {α β : Type} {f g : α → β} :
    ∀ {l : List α}, (∀ x ∈ l, f x = g x) → l.map f = l.map g := by
  intro l
  induction l with
  | nil => intro _; rfl
  | cons x xs ih =>
    intro h
    simp only [List.map_cons]
    rw [h x (by simp), ih (fun y hy => h y (by simp [hy]))]

/-- A successful `exceptMap` relates inputs to outputs pointwise. -/
theorem exceptMap_ok_forall2 {α β : Type} (f : α → Except PyError β) :
    ∀ (xs : List α) (ys : List β), exceptMap f xs = .ok ys →
      List.Forall₂ (fun x y => f x = .ok y) xs ys := by
  intro xs
  induction xs with
  | nil =>
    intro ys h
    cases h
    exact List.Forall₂.nil
  | cons x xs ih =>
    intro ys h
    unfold exceptMap at h
    cases hx : f x with
    | error e => rw [hx] at h; cases h
    | ok y =>
      rw [hx] at h
      cases hxs : exceptMap f xs with
      | error e => rw [hxs] at h; cases h
      | ok ys2 =>
        rw [hxs] at h
        cases h
        exact List.Forall₂.cons hx (ih ys2 hxs)

/-- Every member of the right list of a `Forall₂` is related to some member
of the left list. -/
theorem forall2_mem {α β : Type} {R : α → β → Prop} :
    ∀ {xs : List α} {ys : List β}, List.Forall₂ R xs ys →
      ∀ y ∈ ys, ∃ x ∈ xs, R x y := by
  intro xs ys h
  induction h with
  | nil => intro y hy; cases hy
  | cons hr _ ih =>
    intro y hy
    rcases List.mem_cons.mp hy with h1 | h2
    · subst h1; exact ⟨_, by simp, hr⟩
    · rcases ih y h2 with ⟨x, hx, hrx⟩
      exact ⟨x, by simp [hx], hrx⟩

/-- Every output of a successful `exceptMap` comes from some input. -/
theorem exceptMap_ok_mem {α β : Type} {f : α → Except PyError β}
    {xs : List α} {ys : List β} (h : exceptMap f xs = .ok ys) :
    ∀ y ∈ ys, ∃ x ∈ xs, f x = .ok y :=
  forall2_mem (exceptMap_ok_forall2 f xs ys h)

/-- `exceptMap` succeeds when every element succeeds. -/
theorem exceptMap_ok_of_all {α β : Type} {f : α → Except PyError β} :
    ∀ {xs : List α}, (∀ x ∈ xs, ∃ y, f x = .ok y) →
      ∃ ys, exceptMap f xs = .ok ys := by
  intro xs
  induction xs with
  | nil => intro _; exact ⟨[], rfl⟩
  | cons x xs ih =>
    intro h
    rcases h x (by simp) with ⟨y, hy⟩
    rcases ih (fun z hz => h z (by simp [hz])) with ⟨ys, hys⟩
    exact ⟨y :: ys, by unfold exceptMap; rw [hy, hys]⟩

/-- Map two pointwise-related output lists of the same input list to equal
results. -/
theorem forall2_map_eq {α β γ : Type} {R : α → β → Prop} {g : β → γ} {h : α → γ}
    (H : ∀ x y, R x y → g y = h x) :
    ∀ {xs : List α} {ys : List β}, List.Forall₂ R xs ys → ys.map g = xs.map h := by
  intro xs ys hf
  induction hf with
  | nil => rfl
  | cons hr _ ih => simp only [List.map_cons, ih, H _ _ hr]

/-- Map the outputs of two successful traversals of the same input list to
equal results, given pointwise agreement. -/
theorem forall2_pair_map {α β γ δ : Type} {R : α → β → Prop} {S : α → γ → Prop}
    {g : β → δ} {h : γ → δ}
    (H : ∀ x y z, R x y → S x z → g y = h z) :
    ∀ {xs : List α} {ys : List β} {zs : List γ},
      List.Forall₂ R xs ys → List.Forall₂ S xs zs → ys.map g = zs.map h := by
  intro xs ys zs h1
  induction h1 generalizing zs with
  | nil =>
    intro h2
    cases h2
    rfl
  | cons hr _ ih =>
    intro h2
    cases h2 with
    | cons hs htl => simp only [List.map_cons, H _ _ _ hr hs, ih htl]

/-- A statement passing the `FunctionDef` isinstance test is a
`functionDef` node. -/
theorem isFunctionDef_eq : ∀ {node : Stmt}, node.isFunctionDef = true →
    ∃ nm b, node = Stmt.functionDef nm b := by
  intro node h
  cases node with
  | functionDef nm b => exact ⟨nm, b, rfl⟩
  | exprStmt e => cases h
  | asyncFunctionDef nm b => cases h
  | classDef nm bs b => cases h
  | passStmt => cases h
  | assignStmt => cases h
  | importStmt => cases h

/-- A statement passing the `ClassDef` isinstance test is a `classDef`
node. -/
theorem isClassDef_eq : ∀ {node : Stmt}, node.isClassDef = true →
    ∃ nm bs b, node = Stmt.classDef nm bs b := by
  intro node h
  cases node with
  | classDef nm bs b => exact ⟨nm, bs, b, rfl⟩
  | exprStmt e => cases h
  | functionDef nm b => cases h
  | asyncFunctionDef nm b => cases h
  | passStmt => cases h
  | assignStmt => cases h
  | importStmt => cases h

/-- What a successful `extract_class_info` says about its result. -/
theorem ED.extract_class_info_ok {seg : Stmt → Option String} {node : Stmt}
    {c : ED.ClassInfo} (h : ED.extract_class_info seg node = .ok c) :
    c.name = node.defName ∧ c.docstring = get_docstring node.defBody ∧
    exceptMap Expr.idAttr node.classBases = .ok c.bases ∧
    c.methods = (node.defBody.filter Stmt.isFunctionDef).map (ED.extract_function_info seg) := by
  simp only [ED.extract_class_info] at h
  cases hb : exceptMap Expr.idAttr node.classBases with
  | error e => rw [hb] at h; cases h
  | ok bs =>
    rw [hb] at h
    injection h with h2
    subst h2
    exact ⟨rfl, rfl, rfl, rfl⟩

/-- What a successful per-class record construction in
`extract_code_entities.py` says about its result. -/
theorem ECE.class_info_ok {seg : Stmt → Option String} {node : Stmt}
    {c : ECE.ClassInfo} (h : ECE.class_info seg node = .ok c) :
    c.name = node.defName ∧ c.docstring = get_docstring node.defBody ∧
    exceptMap Expr.idAttr node.classBases = .ok c.bases ∧
    c.methods = (node.defBody.filter Stmt.isFunctionDef).map (ECE.get_function_info seg) := by
  simp only [ECE.class_info] at h
  cases hb : exceptMap Expr.idAttr node.classBases with
  | error e => rw [hb] at h; cases h
  | ok bs =>
    rw [hb] at h
    injection h with h2
    subst h2
    exact ⟨rfl, rfl, rfl, rfl⟩

/-- What a successful `get_module_info` of `extract_definitions.py` says
about its result. -/
theorem ED.get_module_info_ok {parse : String → Except PyError (List Stmt)}
    {seg : Stmt → Option String} {src : String} {body : List Stmt}
    {m : ED.ModuleInfo} (hp : parse src = .ok body)
    (h : ED.get_module_info parse seg src = .ok m) :
    m.docstring = get_docstring body ∧
    m.functions = (body.filter Stmt.isFunctionDef).map (ED.extract_function_info seg) ∧
    exceptMap (ED.extract_class_info seg) (body.filter Stmt.isClassDef) = .ok m.classes := by
  simp only [ED.get_module_info, hp] at h
  cases hc : exceptMap (ED.extract_class_info seg) (body.filter Stmt.isClassDef) with
  | error e => rw [hc] at h; cases h
  | ok cs =>
    rw [hc] at h
    injection h with h2
    subst h2
    exact ⟨rfl, rfl, rfl⟩

/-- What a successful `get_module_info` of `extract_code_entities.py` says
about its result. -/
theorem ECE.module_record_ok {parse : String → Except PyError (List Stmt)}
    {seg : Stmt → Option String} {src : String} {body : List Stmt}
    {m : ECE.ModuleInfo} (hp : parse src = .ok body)
    (h : ECE.get_module_info parse seg src = .ok m) :
    ECE.module_docs body = .ok m.docs ∧
    m.functions = (body.filter Stmt.isFunctionDef).map (ECE.get_function_info seg) ∧
    exceptMap (ECE.class_info seg) (body.filter Stmt.isClassDef) = .ok m.classes := by
  simp only [ECE.get_module_info, hp] at h
  cases hd : ECE.module_docs body with
  | error e => rw [hd] at h; cases h
  | ok d =>
    rw [hd] at h
    cases hc : exceptMap (ECE.class_info seg) (body.filter Stmt.isClassDef) with
    | error e => rw [hc] at h; cases h
    | ok cs =>
      rw [hc] at h
      injection h with h2
      subst h2
      exact ⟨rfl, rfl, rfl⟩

/-- Mapping after mapping collapses pointwise. -/
theorem map_map_eq {α β γ : Type} {f : α → β} {F : β → γ} {G : α → γ} :
    ∀ {l : List α}, (∀ x ∈ l, F (f x) = G x) → (l.map f).map F = l.map G := by
  intro l
  induction l with
  | nil => intro _; rfl
  | cons x xs ih =>
    intro h
    simp only [List.map_cons]
    rw [h x (by simp), ih (fun y hy => h y (by simp [hy]))]

/-- Two map-after-map pipelines over the same list agree when they agree
pointwise. -/
theorem map_map_pair_eq {α β γ δ : Type} {f : α → β} {g : α → γ}
    {F : β → δ} {G : γ → δ} :
    ∀ {l : List α}, (∀ x ∈ l, F (f x) = G (g x)) →
      (l.map f).map F = (l.map g).map G := by
  intro l
  induction l with
  | nil => intro _; rfl
  | cons x xs ih =>
    intro h
    simp only [List.map_cons]
    rw [h x (by simp), ih (fun y hy => h y (by simp [hy]))]

/-- The module-docstring branch of `extract_code_entities.py` only inspects
the first statement. -/
theorem ECE.module_docs_cons (x : Stmt) (l1 l2 : List Stmt) :
    ECE.module_docs (x :: l1) = ECE.module_docs (x :: l2) := by
  cases x <;> rfl

/-- C1 (amended): for function, method and class records in both scripts,
and for the module record of `extract_definitions.py`, the docstring is
present exactly when the first statement of the corresponding body is a
bare string-literal expression statement, in which case it equals that
string's value as cleaned by `inspect.cleandoc` (so a first-statement
literal empty string yields docstring = `""`, distinct from absent), and in
every other case the docstring is absent; the module record of
`extract_code_entities.py` instead stores `.value.value` of any first
expression statement (see the counterexample for the deviation). -/
theorem claim1_docstring_rule :
    (∀ s rest, get_docstring (Stmt.exprStmt (Expr.constant (Const.str s)) :: rest)
        = some (cleandoc s))
    ∧ (∀ body, (∀ s rest, body ≠ Stmt.exprStmt (Expr.constant (Const.str s)) :: rest) →
        get_docstring body = none)
    ∧ (∀ seg nm body,
        (ED.extract_function_info seg (Stmt.functionDef nm body)).docstring
          = get_docstring body)
    ∧ (∀ seg nm body,
        (ECE.get_function_info seg (Stmt.functionDef nm body)).docstring
          = get_docstring body)
    ∧ (∀ seg nm bs body c,
        ED.extract_class_info seg (Stmt.classDef nm bs body) = Except.ok c →
        c.docstring = get_docstring body)
    ∧ (∀ seg nm bs body c,
        ECE.class_info seg (Stmt.classDef nm bs body) = Except.ok c →
        c.docstring = get_docstring body)
    ∧ (∀ parse seg src body m, parse src = Except.ok body →
        ED.get_module_info parse seg src = Except.ok m →
        m.docstring = get_docstring body)
    ∧ cleandoc "" = ""
    ∧ (∀ e rest, ECE.module_docs (Stmt.exprStmt e :: rest) = e.valueAttr) := by
  refine ⟨fun s rest => rfl, ?_, fun seg nm body => rfl, fun seg nm body => rfl,
    ?_, ?_, ?_, rfl, fun e rest => rfl⟩
  · intro body h
    cases body with
    | nil => rfl
    | cons st rest =>
      cases st with
      | exprStmt e =>
        cases e with
        | constant c =>
          cases c with
          | str s => exact absurd rfl (h s rest)
          | intLit n => rfl
          | noneLit => rfl
        | name i => rfl
        | attr v a => rfl
        | call f => rfl
      | functionDef n b => rfl
      | asyncFunctionDef n b => rfl
      | classDef n bs b => rfl
      | passStmt => rfl
      | assignStmt => rfl
      | importStmt => rfl
  · intro seg nm bs body c h
    exact (ED.extract_class_info_ok h).2.1
  · intro seg nm bs body c h
    exact (ECE.class_info_ok h).2.1
  · intro parse seg src body m hp h
    exact (ED.get_module_info_ok hp h).1

/-- Witness for C1 at concrete inputs: a first-statement empty string
literal yields docstring `some ""` (distinct from `none`), and a body
starting with `pass` yields `none`. -/
theorem claim1_docstring_rule_witness :
    get_docstring [Stmt.exprStmt (Expr.constant (Const.str ""))] = some ""
    ∧ get_docstring [Stmt.passStmt] = none := by
  constructor
  · have h := claim1_docstring_rule.1 "" []
    rw [h]
    rfl
  · exact claim1_docstring_rule.2.1 [Stmt.passStmt] (fun s rest h => by simp at h)

/-- Counterexample to C1 as stated: on the parseable source `"42"` (whose
AST is one expression statement holding the constant `42`),
`extract_code_entities.py` stores `42` as the module docstring even though
the first statement is not a string literal, where the claim demands
absence; and on a function whose first body statement is the string
literal `"  hi"`, the stored docstring is the cleaned `"hi"`, not that
string's value `"  hi"` as the claim demands. -/
theorem claim1_docstring_rule_cex :
    ECE.get_module_info parse42 segNone "42"
      = Except.ok { docs := PyVal.intVal 42, classes := [], functions := [] }
    ∧ (ED.extract_function_info segNone
        (Stmt.functionDef "f" [Stmt.exprStmt (Expr.constant (Const.str "  hi"))])).docstring
      = some "hi"
    ∧ (ED.extract_function_info segNone
        (Stmt.functionDef "f" [Stmt.exprStmt (Expr.constant (Const.str "  hi"))])).docstring
      ≠ some "  hi" := by
  refine ⟨rfl, by decide, by decide⟩

/-- C2 (confirmed): in both scripts, a successfully produced Module Record
has exactly one Function Record per top-level `FunctionDef` statement and
one Class Record per top-level `ClassDef` statement, in source declaration
order (record names match the filtered statement names pointwise), and no
other statement kind contributes a record. -/
theorem claim2_top_level_order
    (parse : String → Except PyError (List Stmt)) (seg : Stmt → Option String)
    (src : String) (body : List Stmt) (hp : parse src = Except.ok body) :
    (∀ m, ED.get_module_info parse seg src = Except.ok m →
      m.functions.length = (body.filter Stmt.isFunctionDef).length
      ∧ m.classes.length = (body.filter Stmt.isClassDef).length
      ∧ m.functions.map ED.FunctionInfo.name = (body.filter Stmt.isFunctionDef).map Stmt.defName
      ∧ m.classes.map ED.ClassInfo.name = (body.filter Stmt.isClassDef).map Stmt.defName)
    ∧ (∀ m, ECE.get_module_info parse seg src = Except.ok m →
      m.functions.length = (body.filter Stmt.isFunctionDef).length
      ∧ m.classes.length = (body.filter Stmt.isClassDef).length
      ∧ m.functions.map ECE.FunctionInfo.name = (body.filter Stmt.isFunctionDef).map Stmt.defName
      ∧ m.classes.map ECE.ClassInfo.name = (body.filter Stmt.isClassDef).map Stmt.defName) := by
  constructor
  · intro m h
    obtain ⟨_, hf, hc⟩ := ED.get_module_info_ok hp h
    have h2 := exceptMap_ok_forall2 _ _ _ hc
    refine ⟨?_, ?_, ?_, ?_⟩
    · rw [hf, List.length_map]
    · exact (List.Forall₂.length_eq h2).symm
    · rw [hf]; exact map_map_eq (fun x _ => rfl)
    · refine forall2_map_eq ?_ h2
      intro x y hxy
      exact (ED.extract_class_info_ok hxy).1
  · intro m h
    obtain ⟨_, hf, hc⟩ := ECE.module_record_ok hp h
    have h2 := exceptMap_ok_forall2 _ _ _ hc
    refine ⟨?_, ?_, ?_, ?_⟩
    · rw [hf, List.length_map]
    · exact (List.Forall₂.length_eq h2).symm
    · rw [hf]; exact map_map_eq (fun x _ => rfl)
    · refine forall2_map_eq ?_ h2
      intro x y hxy
      exact (ECE.class_info_ok hxy).1

/-- The AST `ast.parse` produces for the section 8 example module extended
with an import statement and a second function: a module docstring, a
function `foo`, a class `Bar` with two simple-name bases and one method, an
import, and a function `baz`. -/
def bodyW : List Stmt :=
  [Stmt.exprStmt (Expr.constant (Const.str "Module doc.")),
   Stmt.functionDef "foo"
     [Stmt.exprStmt (Expr.constant (Const.str "Foo doc.")), Stmt.passStmt],
   Stmt.classDef "Bar" [Expr.name "Base1", Expr.name "Base2"]
     [Stmt.exprStmt (Expr.constant (Const.str "Bar doc.")),
      Stmt.functionDef "method" [Stmt.passStmt]],
   Stmt.importStmt,
   Stmt.functionDef "baz" []]

/-- A parser oracle returning `bodyW`. -/
def parseW : String → Except PyError (List Stmt) := fun _ => .ok bodyW

/-- The Module Record `extract_definitions.py` computes from `bodyW` with
an empty span resolver. -/
def mW : ED.ModuleInfo :=
  { docstring := some "Module doc."
    classes := [{ name := "Bar", docstring := some "Bar doc.", bases := ["Base1", "Base2"],
                  methods := [{ name := "method", docstring := none, content := "" }] }]
    functions := [{ name := "foo", docstring := some "Foo doc.", content := "" },
                  { name := "baz", docstring := none, content := "" }] }

/-- Witness for C2 at `bodyW`: two functions and one class, in source
order, with the import statement contributing nothing. -/
theorem claim2_top_level_order_witness :
    mW.functions.map ED.FunctionInfo.name = ["foo", "baz"]
    ∧ mW.classes.map ED.ClassInfo.name = ["Bar"]
    ∧ mW.functions.length = 2 ∧ mW.classes.length = 1 := by
  have h := (claim2_top_level_order parseW segNone "w" bodyW rfl).1 mW (by rfl)
  refine ⟨?_, ?_, ?_, ?_⟩
  · rw [h.2.2.1]; rfl
  · rw [h.2.2.2]; rfl
  · rw [h.1]; rfl
  · rw [h.2.1]; rfl

/-- C3 (code_bug evaluation): on the parseable source
`"class C(module.Base):\n    pass"`, whose class base is an attribute
access rather than a simple name, both scripts raise `AttributeError` from
`base.id` instead of returning a Module Record. -/
theorem claim3_attr_base_crash :
    ED.get_module_info parseClassAttrBase segNone "class C(module.Base):\n    pass"
      = Except.error PyError.attributeError
    ∧ ECE.get_module_info parseClassAttrBase segNone "class C(module.Base):\n    pass"
      = Except.error PyError.attributeError := ⟨rfl, rfl⟩

/-- C4 (amended): on the empty source (whose AST is an empty top-level
statement list), `extract_definitions.py` succeeds with docstring absent
and empty functions and classes, while `extract_code_entities.py` raises
`IndexError` indexing `stmts[0]`. -/
theorem claim4_empty_module (parse : String → Except PyError (List Stmt))
    (seg : Stmt → Option String) (src : String)
    (hp : parse src = Except.ok []) :
    ED.get_module_info parse seg src
      = Except.ok { docstring := none, classes := [], functions := [] }
    ∧ ECE.get_module_info parse seg src = Except.error PyError.indexError := by
  constructor
  · simp only [ED.get_module_info, hp]
    rfl
  · simp only [ECE.get_module_info, hp]
    rfl

/-- Witness for C4: the concrete empty-module parse. -/
theorem claim4_empty_module_witness :
    ED.get_module_info parseEmptyMod segNone ""
      = Except.ok { docstring := none, classes := [], functions := [] }
    ∧ ECE.get_module_info parseEmptyMod segNone "" = Except.error PyError.indexError :=
  claim4_empty_module parseEmptyMod segNone "" rfl

/-- Counterexample to C4 as stated: on the empty source, extraction in
`extract_code_entities.py` does fail — it raises `IndexError` rather than
returning a Module Record. -/
theorem claim4_empty_module_cex :
    ECE.get_module_info parseEmptyMod segNone "" = Except.error PyError.indexError := rfl

/-- Round-trip for a single record produced by
`extract_function_info` of `extract_definitions.py`, under the Parser
Adapter contract: the stored content re-parses to one definition carrying
the stored name. -/
theorem ED.extract_roundtrip {parse : String → Except PyError (List Stmt)}
    {seg : Stmt → Option String} (hA : ParserAdapterOK parse seg)
    (nm : String) (b : List Stmt) :
    ∃ fb, parse ((ED.extract_function_info seg (Stmt.functionDef nm b)).content)
      = Except.ok [Stmt.functionDef
          ((ED.extract_function_info seg (Stmt.functionDef nm b)).name) fb] := by
  obtain ⟨s, hs, _⟩ := hA.resolves nm b
  obtain ⟨fb, hparse⟩ := hA.roundtrip nm b s hs
  refine ⟨fb, ?_⟩
  simp only [ED.extract_function_info, Stmt.defName, hs, Option.getD_some]
  exact hparse

/-- Round-trip for a single record produced by `get_function_info` of
`extract_code_entities.py`, under the Parser Adapter contract. -/
theorem ECE.record_roundtrip {parse : String → Except PyError (List Stmt)}
    {seg : Stmt → Option String} (hA : ParserAdapterOK parse seg)
    (nm : String) (b : List Stmt) :
    ∃ s fb, (ECE.get_function_info seg (Stmt.functionDef nm b)).content = some s
      ∧ parse s = Except.ok [Stmt.functionDef
          ((ECE.get_function_info seg (Stmt.functionDef nm b)).name) fb] := by
  obtain ⟨s, hs, _⟩ := hA.resolves nm b
  obtain ⟨fb, hparse⟩ := hA.roundtrip nm b s hs
  refine ⟨s, fb, ?_, ?_⟩
  · simp only [ECE.get_function_info]
    exact hs
  · simp only [ECE.get_function_info, Stmt.defName]
    exact hparse

/-- C5 (confirmed, with the Parser Adapter contract spec-modelled): every
Function Record a successful extraction produces — top-level function or
class method, in either script — has a content that re-parses to exactly
one definition whose identifier equals the record's name. -/
theorem claim5_roundtrip (parse : String → Except PyError (List Stmt))
    (seg : Stmt → Option String) (hA : ParserAdapterOK parse seg)
    (src : String) (body : List Stmt) (hp : parse src = Except.ok body) :
    (∀ m, ED.get_module_info parse seg src = Except.ok m →
      (∀ r ∈ m.functions,
        ∃ fb, parse r.content = Except.ok [Stmt.functionDef r.name fb])
      ∧ (∀ c ∈ m.classes, ∀ r ∈ c.methods,
        ∃ fb, parse r.content = Except.ok [Stmt.functionDef r.name fb]))
    ∧ (∀ m, ECE.get_module_info parse seg src = Except.ok m →
      (∀ r ∈ m.functions, ∃ s fb, r.content = some s
        ∧ parse s = Except.ok [Stmt.functionDef r.name fb])
      ∧ (∀ c ∈ m.classes, ∀ r ∈ c.methods, ∃ s fb, r.content = some s
        ∧ parse s = Except.ok [Stmt.functionDef r.name fb])) := by
  constructor
  · intro m h
    obtain ⟨_, hf, hc⟩ := ED.get_module_info_ok hp h
    constructor
    · intro r hr
      rw [hf] at hr
      rcases List.mem_map.mp hr with ⟨node, hn, rfl⟩
      obtain ⟨nm, b, rfl⟩ := isFunctionDef_eq (List.of_mem_filter hn)
      exact ED.extract_roundtrip hA nm b
    · intro c hcm r hr
      rcases exceptMap_ok_mem hc c hcm with ⟨node, _, hok⟩
      have hm := (ED.extract_class_info_ok hok).2.2.2
      rw [hm] at hr
      rcases List.mem_map.mp hr with ⟨mnode, hmn, rfl⟩
      obtain ⟨mnm, mb, rfl⟩ := isFunctionDef_eq (List.of_mem_filter hmn)
      exact ED.extract_roundtrip hA mnm mb
  · intro m h
    obtain ⟨_, hf, hc⟩ := ECE.module_record_ok hp h
    constructor
    · intro r hr
      rw [hf] at hr
      rcases List.mem_map.mp hr with ⟨node, hn, rfl⟩
      obtain ⟨nm, b, rfl⟩ := isFunctionDef_eq (List.of_mem_filter hn)
      exact ECE.record_roundtrip hA nm b
    · intro c hcm r hr
      rcases exceptMap_ok_mem hc c hcm with ⟨node, _, hok⟩
      have hm := (ECE.class_info_ok hok).2.2.2
      rw [hm] at hr
      rcases List.mem_map.mp hr with ⟨mnode, hmn, rfl⟩
      obtain ⟨mnm, mb, rfl⟩ := isFunctionDef_eq (List.of_mem_filter hmn)
      exact ECE.record_roundtrip hA mnm mb

/-- The record `extract_definitions.py` builds for the single function of
the module `"def g"` under `parseRT`/`segRT`. -/
def recW : ED.FunctionInfo := ED.extract_function_info segRT (Stmt.functionDef "g" [])

/-- The Module Record `extract_definitions.py` computes for the module
`"def g"` under `parseRT`/`segRT`. -/
def mRT : ED.ModuleInfo := { docstring := none, classes := [], functions := [recW] }

/-- Witness for C5: the concrete adapter `parseRT`/`segRT` and the module
`"def g"`. -/
theorem claim5_roundtrip_witness :
    ∃ fb, parseRT recW.content = Except.ok [Stmt.functionDef recW.name fb] := by
  have h := (claim5_roundtrip parseRT segRT parseRT_segRT_ok "def g"
      [Stmt.functionDef "g" []] rfl).1 mRT (by rfl)
  exact h.1 recW (by simp [mRT])

/-- C6 (confirmed, non-emptiness under the spec-modelled Parser Adapter
contract): the content field of every Function Record equals the span
resolver's exact substring for the definition node (in
`extract_definitions.py` via the `or ""` fallback, in
`extract_code_entities.py` verbatim), and when the node resolves to a valid
span the content is non-empty. -/
theorem claim6_content_span (parse : String → Except PyError (List Stmt))
    (seg : Stmt → Option String) (hA : ParserAdapterOK parse seg) :
    (∀ node s, seg node = some s →
      (ED.extract_function_info seg node).content = s
      ∧ (ECE.get_function_info seg node).content = some s)
    ∧ (∀ nm body,
      seg (Stmt.functionDef nm body)
        = some ((ED.extract_function_info seg (Stmt.functionDef nm body)).content)
      ∧ (ED.extract_function_info seg (Stmt.functionDef nm body)).content ≠ "") := by
  constructor
  · intro node s hs
    constructor
    · simp only [ED.extract_function_info, hs, Option.getD_some]
    · simp only [ECE.get_function_info, hs]
  · intro nm body
    obtain ⟨s, hs, hne⟩ := hA.resolves nm body
    constructor
    · simp only [ED.extract_function_info, hs, Option.getD_some]
    · simp only [ED.extract_function_info, hs, Option.getD_some]
      exact hne

/-- Witness for C6 at the concrete adapter `parseRT`/`segRT`. -/
theorem claim6_content_span_witness :
    (ED.extract_function_info segRT (Stmt.functionDef "g" [])).content = "def g"
    ∧ (ED.extract_function_info segRT (Stmt.functionDef "g" [])).content ≠ "" := by
  constructor
  · exact ((claim6_content_span parseRT segRT parseRT_segRT_ok).1
      (Stmt.functionDef "g" []) "def g" (by rfl)).1
  · exact ((claim6_content_span parseRT segRT parseRT_segRT_ok).2 "g" []).2

/-- C7 (confirmed): in both scripts, the methods of a successfully
extracted Class Record are exactly the records of the direct first-level
`FunctionDef` children of the class body, in source order; every method
record comes from such a direct child (so class-level assignments and
nested classes contribute nothing and are not recursed into, and
definitions nested inside method bodies never appear). -/
theorem claim7_methods_direct_children (seg : Stmt → Option String)
    (nm : String) (bs : List Expr) (cbody : List Stmt) :
    (∀ c, ED.extract_class_info seg (Stmt.classDef nm bs cbody) = Except.ok c →
      c.methods.length = (cbody.filter Stmt.isFunctionDef).length
      ∧ c.methods.map ED.FunctionInfo.name
          = (cbody.filter Stmt.isFunctionDef).map Stmt.defName
      ∧ ∀ r ∈ c.methods, ∃ node ∈ cbody, node.isFunctionDef = true
          ∧ r = ED.extract_function_info seg node)
    ∧ (∀ c, ECE.class_info seg (Stmt.classDef nm bs cbody) = Except.ok c →
      c.methods.length = (cbody.filter Stmt.isFunctionDef).length
      ∧ c.methods.map ECE.FunctionInfo.name
          = (cbody.filter Stmt.isFunctionDef).map Stmt.defName
      ∧ ∀ r ∈ c.methods, ∃ node ∈ cbody, node.isFunctionDef = true
          ∧ r = ECE.get_function_info seg node) := by
  constructor
  · intro c h
    have hm := (ED.extract_class_info_ok h).2.2.2
    refine ⟨?_, ?_, ?_⟩
    · rw [hm, List.length_map]
      rfl
    · rw [hm]
      exact map_map_eq (fun x _ => rfl)
    · intro r hr
      rw [hm] at hr
      rcases List.mem_map.mp hr with ⟨node, hn, rfl⟩
      exact ⟨node, List.mem_of_mem_filter hn, List.of_mem_filter hn, rfl⟩
  · intro c h
    have hm := (ECE.class_info_ok h).2.2.2
    refine ⟨?_, ?_, ?_⟩
    · rw [hm, List.length_map]
      rfl
    · rw [hm]
      exact map_map_eq (fun x _ => rfl)
    · intro r hr
      rw [hm] at hr
      rcases List.mem_map.mp hr with ⟨node, hn, rfl⟩
      exact ⟨node, List.mem_of_mem_filter hn, List.of_mem_filter hn, rfl⟩

/-- A class body holding a docstring, one method, a class-level assignment
and a nested class that itself holds a function definition. -/
def cbodyW : List Stmt :=
  [Stmt.exprStmt (Expr.constant (Const.str "Bar doc.")),
   Stmt.functionDef "method" [Stmt.passStmt],
   Stmt.assignStmt,
   Stmt.classDef "Nested" [] [Stmt.functionDef "hidden" []]]

/-- The Class Record `extract_definitions.py` computes from `cbodyW`: only
the direct method appears, the nested class contributes nothing and its
inner function `hidden` is not recursed into. -/
def cBarW : ED.ClassInfo :=
  { name := "Bar2", docstring := some "Bar doc.", bases := [],
    methods := [{ name := "method", docstring := none, content := "" }] }

/-- Witness for C7 at `cbodyW`: exactly the one direct method, in order. -/
theorem claim7_methods_direct_children_witness :
    cBarW.methods.map ED.FunctionInfo.name = ["method"]
    ∧ cBarW.methods.length = 1 := by
  have h := (claim7_methods_direct_children segNone "Bar2" [] cbodyW).1 cBarW (by rfl)
  constructor
  · rw [h.2.1]
    rfl
  · rw [h.1]
    rfl

/-- C8 (amended): a `SyntaxError` from the parser propagates uncaught out
of both entry points and no record is produced; extraction of a parseable
source inspects only the AST (so semantic errors in the source are
invisible to it) and succeeds provided every class base is a simple name
(and, for `extract_code_entities.py`, the module-docstring read of the
first statement succeeds). -/
theorem claim8_error_handling (parse : String → Except PyError (List Stmt))
    (seg : Stmt → Option String) (src : String) :
    (parse src = Except.error PyError.syntaxError →
      ED.get_module_info parse seg src = Except.error PyError.syntaxError
      ∧ ECE.get_module_info parse seg src = Except.error PyError.syntaxError)
    ∧ (∀ body, parse src = Except.ok body →
      (∀ st ∈ body, ∀ b ∈ st.classBases, ∃ id, b = Expr.name id) →
      (∃ m, ED.get_module_info parse seg src = Except.ok m)
      ∧ ((∃ d, ECE.module_docs body = Except.ok d) →
        ∃ m, ECE.get_module_info parse seg src = Except.ok m)) := by
  constructor
  · intro hp
    constructor
    · simp only [ED.get_module_info, hp]
    · simp only [ECE.get_module_info, hp]
  · intro body hp hB
    have hbases : ∀ node ∈ body, ∃ bs2, exceptMap Expr.idAttr node.classBases = .ok bs2 := by
      intro node hn
      apply exceptMap_ok_of_all
      intro b hb
      rcases hB node hn b hb with ⟨id, rfl⟩
      exact ⟨id, rfl⟩
    constructor
    · have hcls : ∀ node ∈ body.filter Stmt.isClassDef,
          ∃ c, ED.extract_class_info seg node = .ok c := by
        intro node hn
        rcases hbases node (List.mem_of_mem_filter hn) with ⟨bs2, hbs2⟩
        refine ⟨{ name := node.defName, docstring := get_docstring node.defBody,
                  bases := bs2,
                  methods := (node.defBody.filter Stmt.isFunctionDef).map
                    (ED.extract_function_info seg) }, ?_⟩
        simp only [ED.extract_class_info, hbs2]
      rcases exceptMap_ok_of_all hcls with ⟨cs, hcs⟩
      refine ⟨{ docstring := get_docstring body, classes := cs,
                functions := (body.filter Stmt.isFunctionDef).map
                  (ED.extract_function_info seg) }, ?_⟩
      simp only [ED.get_module_info, hp, hcs]
    · intro hd
      rcases hd with ⟨d, hd⟩
      have hcls : ∀ node ∈ body.filter Stmt.isClassDef,
          ∃ c, ECE.class_info seg node = .ok c := by
        intro node hn
        rcases hbases node (List.mem_of_mem_filter hn) with ⟨bs2, hbs2⟩
        refine ⟨{ name := node.defName, docstring := get_docstring node.defBody,
                  bases := bs2,
                  methods := (node.defBody.filter Stmt.isFunctionDef).map
                    (ECE.get_function_info seg) }, ?_⟩
        simp only [ECE.class_info, hbs2]
      rcases exceptMap_ok_of_all hcls with ⟨cs, hcs⟩
      refine ⟨{ docs := d, classes := cs,
                functions := (body.filter Stmt.isFunctionDef).map
                  (ECE.get_function_info seg) }, ?_⟩
      simp only [ECE.get_module_info, hp, hd, hcs]

/-- Witness for C8: a syntax error propagates out of both scripts on the
unparseable text `"def f(:"`, and the parseable source `"pass"` (simple,
semantics-free AST) extracts successfully. -/
theorem claim8_error_handling_witness :
    (ED.get_module_info parseBad segNone "def f(:" = Except.error PyError.syntaxError
     ∧ ECE.get_module_info parseBad segNone "def f(:" = Except.error PyError.syntaxError)
    ∧ ∃ m, ED.get_module_info parsePass segNone "pass" = Except.ok m := by
  constructor
  · exact (claim8_error_handling parseBad segNone "def f(:").1 rfl
  · refine (((claim8_error_handling parsePass segNone "pass").2 [Stmt.passStmt] rfl ?_).1)
    intro st hst b hb
    rw [List.mem_singleton] at hst
    subst hst
    simp [Stmt.classBases] at hb

/-- Counterexample to C8 as stated: the source
`"class C(module.Base):\n    pass"` is parseable (the parser returns its
AST), yet extraction does not succeed — it raises `AttributeError` — even
though the source contains no syntax error. -/
theorem claim8_error_handling_cex :
    parseClassAttrBase "class C(module.Base):\n    pass"
      = Except.ok [Stmt.classDef "C" [Expr.attr (Expr.name "module") "Base"] [Stmt.passStmt]]
    ∧ ED.get_module_info parseClassAttrBase segNone "class C(module.Base):\n    pass"
      = Except.error PyError.attributeError := ⟨rfl, rfl⟩

/-- Pointwise agreement of the two scripts' function-record dicts, under
the Parser Adapter contract (which guarantees the span resolves, so the
`or ""` fallback of `extract_definitions.py` never fires). -/
theorem funinfo_toD_eq {parse : String → Except PyError (List Stmt)}
    {seg : Stmt → Option String} (hA : ParserAdapterOK parse seg)
    {node : Stmt} (hn : node.isFunctionDef = true) :
    ED.FunctionInfo.toD (ED.extract_function_info seg node)
      = ECE.FunctionInfo.toD (ECE.get_function_info seg node) := by
  obtain ⟨nm, b, rfl⟩ := isFunctionDef_eq hn
  obtain ⟨s, hs, _⟩ := hA.resolves nm b
  simp only [ED.FunctionInfo.toD, ECE.FunctionInfo.toD, ED.extract_function_info,
    ECE.get_function_info, hs, Option.getD_some, optStrD]

/-- Pointwise agreement of the two scripts' class-record dicts, under the
Parser Adapter contract. -/
theorem classinfo_toD_eq {parse : String → Except PyError (List Stmt)}
    {seg : Stmt → Option String} (hA : ParserAdapterOK parse seg)
    {node : Stmt} {cE : ED.ClassInfo} {cC : ECE.ClassInfo}
    (hE : ED.extract_class_info seg node = Except.ok cE)
    (hC : ECE.class_info seg node = Except.ok cC) :
    ED.ClassInfo.toD cE = ECE.ClassInfo.toD cC := by
  obtain ⟨hnE, hdE, hbE, hmE⟩ := ED.extract_class_info_ok hE
  obtain ⟨hnC, hdC, hbC, hmC⟩ := ECE.class_info_ok hC
  rw [hbE] at hbC
  have hb : cE.bases = cC.bases := Except.ok.inj hbC
  have hmm : cE.methods.map ED.FunctionInfo.toD = cC.methods.map ECE.FunctionInfo.toD := by
    rw [hmE, hmC]
    exact map_map_pair_eq (fun x hx => funinfo_toD_eq hA (List.of_mem_filter hx))
  simp only [ED.ClassInfo.toD, ECE.ClassInfo.toD, hnE, hnC, hdE, hdC, hb, hmm]

/-- C9 (amended): whenever both entry points succeed on the same parseable
source (under the Parser Adapter contract), they agree on the functions and
classes components of the Module Record — same names, docstrings, contents,
bases and methods, compared as the dict structures the scripts serialize.
Their module records as a whole nevertheless differ (see the
counterexample): the module-docstring key is `docstring` in one script and
`docs` in the other, with different value semantics. -/
theorem claim9_dict_agreement (parse : String → Except PyError (List Stmt))
    (seg : Stmt → Option String) (hA : ParserAdapterOK parse seg)
    (src : String) (body : List Stmt) (hp : parse src = Except.ok body)
    (mE : ED.ModuleInfo) (mC : ECE.ModuleInfo)
    (h1 : ED.get_module_info parse seg src = Except.ok mE)
    (h2 : ECE.get_module_info parse seg src = Except.ok mC) :
    mE.functions.map ED.FunctionInfo.toD = mC.functions.map ECE.FunctionInfo.toD
    ∧ mE.classes.map ED.ClassInfo.toD = mC.classes.map ECE.ClassInfo.toD := by
  obtain ⟨_, hfE, hcE⟩ := ED.get_module_info_ok hp h1
  obtain ⟨_, hfC, hcC⟩ := ECE.module_record_ok hp h2
  constructor
  · rw [hfE, hfC]
    exact map_map_pair_eq (fun x hx => funinfo_toD_eq hA (List.of_mem_filter hx))
  · have hFE := exceptMap_ok_forall2 _ _ _ hcE
    have hFC := exceptMap_ok_forall2 _ _ _ hcC
    refine forall2_pair_map ?_ hFE hFC
    intro x y z hxy hxz
    exact classinfo_toD_eq hA hxy hxz

/-- The Module Record `extract_code_entities.py` computes for the module
`"def g"` under `parseRT`/`segRT`. -/
def mRTC : ECE.ModuleInfo :=
  { docs := PyVal.noneVal, classes := [],
    functions := [ECE.get_function_info segRT (Stmt.functionDef "g" [])] }

/-- Witness for C9: both scripts agree on the functions component of
`"def g"` under the concrete adapter `parseRT`/`segRT`. -/
theorem claim9_dict_agreement_witness :
    mRT.functions.map ED.FunctionInfo.toD = mRTC.functions.map ECE.FunctionInfo.toD :=
  (claim9_dict_agreement parseRT segRT parseRT_segRT_ok "def g"
    [Stmt.functionDef "g" []] rfl mRT mRTC (by rfl) (by rfl)).1

/-- Counterexample to C9 as stated: on the parseable source `"pass"` both
scripts succeed, but the two Module Records are not the same — the
module-docstring field is named `docstring` in `extract_definitions.py`
and `docs` in `extract_code_entities.py`. -/
theorem claim9_dict_agreement_cex :
    Except.map ED.ModuleInfo.toD (ED.get_module_info parsePass segNone "pass")
      ≠ Except.map ECE.ModuleInfo.toD (ECE.get_module_info parsePass segNone "pass") := by
  intro h
  have e1 : Except.map ED.ModuleInfo.toD (ED.get_module_info parsePass segNone "pass")
      = Except.ok (DVal.dict [("docstring", DVal.null), ("classes", DVal.list []),
          ("functions", DVal.list [])]) := rfl
  have e2 : Except.map ECE.ModuleInfo.toD (ECE.get_module_info parsePass segNone "pass")
      = Except.ok (DVal.dict [("docs", DVal.null), ("classes", DVal.list []),
          ("functions", DVal.list [])]) := rfl
  rw [e1, e2] at h
  have h3 := Except.ok.inj h
  have h4 : ("docstring" : String) = "docs" :=
    congrArg (fun d => match d with | DVal.dict ((k, _) :: _) => k | _ => "") h3
  exact absurd h4 (by decide)

/-- C10 (confirmed): an `async def` is silently ignored everywhere —
deleting an `asyncFunctionDef` from the top-level statement list changes
neither the functions nor the classes component of the
`extract_definitions.py` record; any record `extract_code_entities.py`
produces from a list containing an async definition (wherever it sits, the
first position included) has exactly the functions and classes of the same
list with the async definition deleted; and deleting an async definition
from a class body changes neither script's methods component. -/
theorem claim10_async_ignored (seg : Stmt → Option String) (nm : String)
    (ab : List Stmt) (b1 b2 : List Stmt) :
    (∀ parse1 parse2 src1 src2,
      parse1 src1 = Except.ok (b1 ++ Stmt.asyncFunctionDef nm ab :: b2) →
      parse2 src2 = Except.ok (b1 ++ b2) →
      (Except.map ED.ModuleInfo.functions (ED.get_module_info parse1 seg src1)
        = Except.map ED.ModuleInfo.functions (ED.get_module_info parse2 seg src2)
      ∧ Except.map ED.ModuleInfo.classes (ED.get_module_info parse1 seg src1)
        = Except.map ED.ModuleInfo.classes (ED.get_module_info parse2 seg src2))
      ∧ (∀ m, ECE.get_module_info parse1 seg src1 = Except.ok m →
        m.functions
          = ((b1 ++ b2).filter Stmt.isFunctionDef).map (ECE.get_function_info seg)
        ∧ exceptMap (ECE.class_info seg) ((b1 ++ b2).filter Stmt.isClassDef)
            = Except.ok m.classes))
    ∧ (∀ cn bs,
      Except.map ED.ClassInfo.methods
          (ED.extract_class_info seg
            (Stmt.classDef cn bs (b1 ++ Stmt.asyncFunctionDef nm ab :: b2)))
        = Except.map ED.ClassInfo.methods
            (ED.extract_class_info seg (Stmt.classDef cn bs (b1 ++ b2)))
      ∧ Except.map ECE.ClassInfo.methods
          (ECE.class_info seg
            (Stmt.classDef cn bs (b1 ++ Stmt.asyncFunctionDef nm ab :: b2)))
        = Except.map ECE.ClassInfo.methods
            (ECE.class_info seg (Stmt.classDef cn bs (b1 ++ b2)))) := by
  have hf : (b1 ++ Stmt.asyncFunctionDef nm ab :: b2).filter Stmt.isFunctionDef
      = (b1 ++ b2).filter Stmt.isFunctionDef := by
    simp [List.filter_append, List.filter_cons, Stmt.isFunctionDef]
  have hc : (b1 ++ Stmt.asyncFunctionDef nm ab :: b2).filter Stmt.isClassDef
      = (b1 ++ b2).filter Stmt.isClassDef := by
    simp [List.filter_append, List.filter_cons, Stmt.isClassDef]
  constructor
  · intro parse1 parse2 src1 src2 h1 h2
    refine ⟨⟨?_, ?_⟩, ?_⟩
    · simp only [ED.get_module_info, h1, h2, hf, hc]
      cases exceptMap (ED.extract_class_info seg) (List.filter Stmt.isClassDef (b1 ++ b2)) <;> rfl
    · simp only [ED.get_module_info, h1, h2, hf, hc]
      cases exceptMap (ED.extract_class_info seg) (List.filter Stmt.isClassDef (b1 ++ b2)) <;> rfl
    · intro m hm
      obtain ⟨_, hfm, hcm⟩ := ECE.module_record_ok h1 hm
      constructor
      · rw [hfm, hf]
      · rw [← hc]
        exact hcm
  · intro cn bs
    constructor
    · simp only [ED.extract_class_info, Stmt.defBody, Stmt.classBases, hf]
      cases exceptMap Expr.idAttr bs <;> rfl
    · simp only [ECE.class_info, Stmt.defBody, Stmt.classBases, hf]
      cases exceptMap Expr.idAttr bs <;> rfl

/-- The AST of a module whose very first statement is an async function
`af`, followed by a function `h`, as `ast.parse` produces it for
`"async def af():\n    pass\ndef h():\n    pass"` (with the async body
simplified to empty, which neither script ever reads). -/
def parseAsync1 : String → Except PyError (List Stmt) :=
  fun _ => .ok [Stmt.asyncFunctionDef "af" [], Stmt.functionDef "h" []]

/-- The same module with the async function deleted. -/
def parseAsync2 : String → Except PyError (List Stmt) :=
  fun _ => .ok [Stmt.functionDef "h" []]

/-- The Module Record `extract_code_entities.py` computes from the
async-first module of `parseAsync1` with an empty span resolver. -/
def mAsyncC : ECE.ModuleInfo :=
  { docs := PyVal.noneVal, classes := [],
    functions := [{ name := "h", docstring := none, content := none }] }

/-- Witness for C10, with the async definition as the very first
statement: deleting it leaves the functions component of the
`extract_definitions.py` record unchanged, and the record
`extract_code_entities.py` produces from the async-first module has
exactly the functions of the async-free module. -/
theorem claim10_async_ignored_witness :
    Except.map ED.ModuleInfo.functions (ED.get_module_info parseAsync1 segNone "a")
      = Except.map ED.ModuleInfo.functions (ED.get_module_info parseAsync2 segNone "b")
    ∧ mAsyncC.functions
      = (([] ++ [Stmt.functionDef "h" []]).filter Stmt.isFunctionDef).map
          (ECE.get_function_info segNone) := by
  have h := (claim10_async_ignored segNone "af" [] []
      [Stmt.functionDef "h" []]).1 parseAsync1 parseAsync2 "a" "b" rfl rfl
  exact ⟨h.1.1, (h.2 mAsyncC (by rfl)).1⟩
